import Mathlib

/-!
Verification model of pymesos process.py (dreambeam/pymesos).

It shallowly embeds, from the source:
  * the record-framing decoder inside Connection.read (lines 110-129),
  * the full Connection.read dispatch (lines 83-141) over the external
    HTTP parser, viewed through its interface,
  * the socket configuration done by Connection.__init__ (lines 54-56),
  * one iteration of the Process._run event loop (lines 210-281) as a
    step function over the loop state, with each time.time() call and
    each select outcome supplied by an environment record.

Bytes are List Nat (values 0-255); machine time is Nat.  json.loads and
HttpParser are external libraries: json.loads is modelled either as an
abstract decode parameter or by the partial jsonDecode model below, and
the parser by the ParserView interface record.
-/

namespace Pymesos

/-! ## Record framing (Connection.read, lines 110-129) -/

/-- Byte is an ASCII decimal digit, as matched by the regex class \d. -/
def isDigitByte (b : Nat) : Bool := Nat.ble 48 b && Nat.ble b 57

/-- Decimal value of a digit run, as int(captured.strip()) computes it. -/
def digitsToNat (ds : List Nat) : Nat := ds.foldl (fun a d => a * 10 + (d - 48)) 0

/-- LENGTH_PATTERN = re.compile(br'\d+\n') matched at the buffer head
(process.py lines 45 and 113).  Returns (number of bytes matched
including the newline, announced payload length), or none when the head
is not a digit run followed by a newline (byte 10). -/
def matchLength (buf : List Nat) : Option (Nat × Nat) :=
  let ds := buf.takeWhile isDigitByte
  if ds.isEmpty then none
  else
    match buf.drop ds.length with
    | 10 :: _ => some (ds.length + 1, digitsToNat ds)
    | _ => none

/-- The while-True extraction loop of Connection.read (lines 112-129),
parametric in the external json.loads (decode; none models a raised
decode exception).  fuel bounds the number of iterations: a result of
none means the loop did not finish within fuel iterations.  On a normal
exit the result is (events delivered in order, remaining buffer, true);
a decode exception yields (events delivered so far, remaining buffer,
false), matching the return False at line 129 after the buffer was
already advanced (lines 120-123).  Note the source has no break when the
buffer holds a matched length prefix but fewer than the announced
payload bytes: the loop then re-runs on an unchanged buffer. -/
def extractLoop {J : Type} (decode : List Nat → Option J) :
    Nat → List Nat → List J → Option (List J × List Nat × Bool)
  | 0, _, _ => none
  | fuel + 1, buf, acc =>
    match matchLength buf with
    | none => some (acc.reverse, buf, true)
    | some (plen, len) =>
      if plen + len ≤ buf.length then
        match decode ((buf.drop plen).take len) with
        | some ev => extractLoop decode fuel (buf.drop (plen + len)) (ev :: acc)
        | none => some (acc.reverse, buf.drop (plen + len), false)
      else
        extractLoop decode fuel buf acc

/-- Successive read deliveries of body fragments: each chunk is appended
to the inbound accumulation buffer (self._response += ..., line 111) and
the extraction loop runs; delivered events concatenate across reads.  A
result of none means some read call's extraction loop did not finish
within fuel iterations; false means a read reported failure. -/
def readsSequence {J : Type} (decode : List Nat → Option J) (fuel : Nat) :
    List (List Nat) → List Nat → Option (List J × List Nat × Bool)
  | [], buf => some ([], buf, true)
  | chunk :: rest, buf =>
    match extractLoop decode fuel (buf ++ chunk) [] with
    | none => none
    | some (evs, buf1, ok) =>
      if ok then
        match readsSequence decode fuel rest buf1 with
        | none => none
        | some (evs2, buf2, ok2) => some (evs ++ evs2, buf2, ok2)
      else some (evs, buf1, false)

/-! ## A partial model of json.loads

json.loads comes from the Python standard library, external to this
repository.  Modelled from the spec: payloads are UTF-8 JSON values; the
model below covers scalars (string, integer, true/false/null) and flat
objects of scalar members, which is the JSON subset the spec exercises,
and rejects everything else — in particular truncated input and trailing
garbage, on which json.loads raises. -/

/-- JSON values for the partial json.loads model.  Strings are kept as
their raw UTF-8 content bytes. -/
inductive Json where
  | null
  | bool (b : Bool)
  | num (n : Int)
  | str (s : List Nat)
  | obj (kvs : List (List Nat × Json))

/-- Drop JSON whitespace (space, tab, newline, carriage return). -/
def skipWs (bs : List Nat) : List Nat :=
  bs.dropWhile (fun b => b == 32 || b == 9 || b == 10 || b == 13)

/-- Parse the remainder of a JSON string after the opening quote:
content up to the closing quote; escapes are not modelled (rejected). -/
def parseStringBody (bs : List Nat) : Option (List Nat × List Nat) :=
  let content := bs.takeWhile (fun b => !(b == 34) && !(b == 92))
  match bs.drop content.length with
  | 34 :: rest => some (content, rest)
  | _ => none

/-- Parse an optionally negated decimal integer. -/
def parseNum (bs : List Nat) : Option (Int × List Nat) :=
  match bs with
  | 45 :: rest =>
    let ds := rest.takeWhile isDigitByte
    if ds.isEmpty then none
    else some (-(digitsToNat ds : Int), rest.drop ds.length)
  | _ =>
    let ds := bs.takeWhile isDigitByte
    if ds.isEmpty then none
    else some ((digitsToNat ds : Int), bs.drop ds.length)

/-- Parse a scalar JSON value: string, true, false, null, or integer. -/
def parseScalar (bs : List Nat) : Option (Json × List Nat) :=
  match bs with
  | 34 :: rest => (parseStringBody rest).map (fun p => (Json.str p.1, p.2))
  | 116 :: 114 :: 117 :: 101 :: rest => some (Json.bool true, rest)
  | 102 :: 97 :: 108 :: 115 :: 101 :: rest => some (Json.bool false, rest)
  | 110 :: 117 :: 108 :: 108 :: rest => some (Json.null, rest)
  | _ => (parseNum bs).map (fun p => (Json.num p.1, p.2))

/-- Parse object members (after the opening brace of a non-empty
object): repeated string key, colon, scalar value, separated by commas,
closed by a closing brace. -/
def parseMembers : Nat → List Nat → Option (List (List Nat × Json) × List Nat)
  | 0, _ => none
  | fuel + 1, bs =>
    match skipWs bs with
    | 34 :: rest =>
      match parseStringBody rest with
      | none => none
      | some (k, r1) =>
        match skipWs r1 with
        | 58 :: r2 =>
          match parseScalar (skipWs r2) with
          | none => none
          | some (v, r3) =>
            match skipWs r3 with
            | 44 :: r4 =>
              match parseMembers fuel r4 with
              | none => none
              | some (kvs, r5) => some ((k, v) :: kvs, r5)
            | 125 :: r4 => some ([(k, v)], r4)
            | _ => none
        | _ => none
    | _ => none

/-- Partial model of json.loads: a flat object or a scalar, with the
whole input consumed (json.loads rejects trailing data); none models a
raised exception. -/
def jsonDecode (bs : List Nat) : Option Json :=
  let r :=
    match skipWs bs with
    | 123 :: rest =>
      match skipWs rest with
      | 125 :: r1 => some (Json.obj [], r1)
      | _ => (parseMembers (bs.length + 1) rest).map (fun p => (Json.obj p.1, p.2))
    | other => parseScalar other
  match r with
  | none => none
  | some (v, rest) => if (skipWs rest).isEmpty then some v else none

/-! ## Connection.read (lines 83-141) over the parser interface -/

/-- What the external HttpParser reports after execute() consumed the
received bytes: the interface used at lines 96-131. -/
structure ParserView where
  headersComplete : Bool
  statusCode : Nat
  chunked : Bool
  mesosStreamId : Option String
  bodyAvail : Bool
  body : List Nat
  messageComplete : Bool
  deriving DecidableEq

/-- Connection-local state read by Connection.read: the stream id (None
until headers complete once) and the inbound accumulation buffer
self._response. -/
structure ConnState where
  streamId : Option String
  response : List Nat
  deriving DecidableEq

/-- Result of one Connection.read call: the new connection state, the
events delivered to the handler in order, the value assigned to the
handler's stream_id property this call (none if not assigned), and the
boolean the method returned. -/
structure ReadResult (J : Type) where
  conn : ConnState
  events : List J
  cbStream : Option String
  ok : Bool
  deriving DecidableEq

/-- Outcome of the recv plus parser.execute preamble (lines 85-94 and
136-141): the peer closed (n_recv = 0), the parser consumed fewer bytes
than received, a successful parse with the parser's report, EAGAIN, or
another socket error. -/
inductive RecvCase where
  | closed
  | parseError
  | parsed (v : ParserView)
  | eagain
  | sockError
  deriving DecidableEq

/-- Body-processing tail of Connection.read (lines 110-135): run the
extraction loop on the accumulation buffer extended by the recv_body
fragment when a partial body is available, then fail when the parser
reports the message complete (line 131).  cb is the stream_id assigned
to the handler earlier in this call, threaded into the result. -/
def connReadBody {J : Type} (decode : List Nat → Option J) (fuel : Nat)
    (c : ConnState) (v : ParserView) (cb : Option String) : Option (ReadResult J) :=
  if v.bodyAvail then
    match extractLoop decode fuel (c.response ++ v.body) [] with
    | none => none
    | some (evs, buf1, ok) =>
      if ok then
        if v.messageComplete then some ⟨⟨c.streamId, buf1⟩, evs, cb, false⟩
        else some ⟨⟨c.streamId, buf1⟩, evs, cb, true⟩
      else some ⟨⟨c.streamId, buf1⟩, evs, cb, false⟩
  else
    if v.messageComplete then some ⟨c, [], cb, false⟩
    else some ⟨c, [], cb, true⟩

/-- Connection.read (lines 83-141).  On a parsed receive, when the
connection's stream id is still unset and headers are complete, validate
status 200 and chunked transfer encoding (returning False otherwise),
capture the Mesos-Stream-Id header with default the empty string, assign
it to the handler, then process the body; when the stream id is already
set the header checks are not reached.  none models an extraction loop
that did not finish within fuel. -/
def connRead {J : Type} (decode : List Nat → Option J) (fuel : Nat)
    (c : ConnState) (r : RecvCase) : Option (ReadResult J) :=
  match r with
  | .closed => some ⟨c, [], none, false⟩
  | .parseError => some ⟨c, [], none, false⟩
  | .eagain => some ⟨c, [], none, true⟩
  | .sockError => some ⟨c, [], none, false⟩
  | .parsed v =>
    if c.streamId = none ∧ v.headersComplete then
      if v.statusCode ≠ 200 then some ⟨c, [], none, false⟩
      else if !v.chunked then some ⟨c, [], none, false⟩
      else
        let sid := v.mesosStreamId.getD ""
        connReadBody decode fuel ⟨some sid, c.response⟩ v (some sid)
    else connReadBody decode fuel c v none

/-! ## Connection.__init__ socket configuration (lines 54-56) -/

/-- Observable socket configuration performed by Connection.__init__:
the argument passed to setblocking and whether connect() is issued
before the constructor returns. -/
structure SockSetup where
  blockingArg : Bool
  connectInInit : Bool
  deriving DecidableEq

/-- Connection.__init__ lines 54-56: self._sock.setblocking(True)
followed by self._sock.connect(self._addr). -/
def connectionSockSetup : SockSetup := ⟨true, true⟩

/-! ## Process._run event loop (lines 200-294) -/

/-- The fixed connect timeout (line 208). -/
def CONNECT_TIMEOUT : Nat := 2

/-- The fixed retry interval (line 209). -/
def CONNECT_RETRY_INTERVAL : Nat := 2

/-- Loop view of the live connection: the endpoint it was created for
and whether it still has unsent request bytes (want_write). -/
structure LConn where
  addr : String
  wantWrite : Bool
  deriving DecidableEq

/-- The loop state: the lock-guarded fields of Process (_master,
_new_master, _stop, _stream_id) plus the worker-local conn and
next_connect_deadline of _run. -/
structure LoopState where
  master : Option String
  newMaster : Option String
  stop : Bool
  streamId : Option String
  conn : Option LConn
  deadline : Nat
  deriving DecidableEq

/-- The teardown pattern repeated at lines 219-224, 254-259, 266-271 and
276-281: close and drop the connection, clear the session stream id, and
schedule the next allowed attempt at now + CONNECT_RETRY_INTERVAL. -/
def teardown (s : LoopState) (now : Nat) : LoopState :=
  { s with conn := none, streamId := none, deadline := now + CONNECT_RETRY_INTERVAL }

/-- Lines 217-226: when the desired master differs from the active one,
tear down any live connection (returning its address as closed) and
adopt the new master.  t is the time.time() of line 223. -/
def phaseRedirect (s : LoopState) (t : Nat) : LoopState × List String :=
  if s.newMaster ≠ s.master then
    match s.conn with
    | some c => ({ teardown s t with master := s.newMaster }, [c.addr])
    | none => ({ s with master := s.newMaster }, [])
  else (s, [])

/-- Lines 228-230: create a Connection when none exists, a master is
set, and time.time() (t) exceeds next_connect_deadline; the fresh
connection targets the master and has unsent request bytes. -/
def phaseConnect (s : LoopState) (t : Nat) : LoopState × Option String :=
  match s.conn, s.master with
  | none, some m =>
    if t > s.deadline then ({ s with conn := some ⟨m, true⟩ }, some m)
    else (s, none)
  | _, _ => (s, none)

/-- The locked head of the loop body (lines 213-230): stop check, then
redirect handling, then the connect attempt; none means the loop breaks
at line 215. -/
def phase1 (s : LoopState) (t1 t2 : Nat) : Option (LoopState × List String × Option String) :=
  if s.stop then none
  else
    some ((phaseConnect (phaseRedirect s t1).1 t2).1, (phaseRedirect s t1).2,
      (phaseConnect (phaseRedirect s t1).1 t2).2)

/-- Lines 250-259: when select reported the connection writable (which
requires it to have wanted a write, line 233), zero
next_connect_deadline, then attempt the send; on failure tear down at
time tW, on success keep the connection with its remaining-bytes flag
wantAfter. -/
def phaseWrite (s : LoopState) (selW writeOk wantAfter : Bool) (tW : Nat) :
    LoopState × List String :=
  match s.conn with
  | some c =>
    if selW && c.wantWrite then
      let s0 := { s with deadline := 0 }
      if writeOk then ({ s0 with conn := some ⟨c.addr, wantAfter⟩ }, [])
      else (teardown s0 tW, [c.addr])
    else (s, [])
  | none => (s, [])

/-- Outcome of the readable dispatch: a new state with closed addresses,
or the unhandled AttributeError of line 264 when the readable loop
evaluates conn.fileno() after conn was already set to None. -/
inductive ReadOut where
  | ok (s : LoopState) (closes : List String)
  | crash
  deriving DecidableEq

/-- Lines 261-271: the wakeup drain has no loop-state effect; when the
connection fd was in the read set (cas: a connection existed at select
time) and select reported it readable, dispatch conn.read(): on failure
tear down at time tR, on success apply the stream-id assignment the read
performed through the handler (upd); if conn is None by now (torn down
in the writable dispatch) the source raises at conn.fileno(). -/
def phaseRead (s : LoopState) (cas selR readOk : Bool) (upd : Option String)
    (tR : Nat) : ReadOut :=
  if cas && selR then
    match s.conn with
    | none => .crash
    | some c =>
      if readOk then
        .ok { s with streamId := match upd with | some v => some v | none => s.streamId } []
      else .ok (teardown s tR) [c.addr]
  else .ok s []

/-- Lines 273-281: the connect-timeout check: only when a connection
exists, next_connect_deadline is nonzero, and time.time() (tT) exceeds
next_connect_deadline + CONNECT_TIMEOUT, tear down at time tT2. -/
def phaseTimeout (s : LoopState) (tT tT2 : Nat) : LoopState × List String :=
  match s.conn with
  | some c =>
    if s.deadline ≠ 0 ∧ tT > s.deadline + CONNECT_TIMEOUT then
      (teardown s tT2, [c.addr])
    else (s, [])
  | none => (s, [])

/-- Everything one loop iteration depends on from outside the loop
state: the values of the successive time.time() calls (tRedirect at
line 223, tCheck at line 229, tWrite at line 258, tRead at line 270,
tTimeout at line 274, tTimeout2 at line 280), the select report for the
connection fd and the wakeup fd, and the outcomes of conn.write() and
conn.read() (readStream being the stream-id value the read assigned to
the handler, if any). -/
structure Env where
  tRedirect : Nat
  tCheck : Nat
  selWritable : Bool
  selReadable : Bool
  selWakeup : Bool
  writeOk : Bool
  wantWriteAfter : Bool
  tWrite : Nat
  readOk : Bool
  readStream : Option String
  tRead : Nat
  tTimeout : Nat
  tTimeout2 : Nat
  deriving DecidableEq

/-- Observable actions of one iteration: the addresses of connections
closed, in order, and the endpoint a new Connection was created for. -/
structure Trace where
  closes : List String
  created : Option String
  deriving DecidableEq

/-- Outcome of one iteration: the loop broke at the stop check, the
iteration completed with a new state and trace, or an unhandled
exception escaped (caught at line 283: stop is set and the fault is
re-raised toward the controller). -/
inductive StepOut where
  | stopped
  | ok (s : LoopState) (tr : Trace)
  | crash
  deriving DecidableEq

/-- The readiness dispatch and timeout tail of an iteration (lines
250-281), after the locked head; cas records whether a connection
existed when select ran. -/
def stepTail (s1 : LoopState) (cas : Bool) (e : Env) : Option (LoopState × List String) :=
  match phaseRead (phaseWrite s1 e.selWritable e.writeOk e.wantWriteAfter e.tWrite).1 cas
      e.selReadable e.readOk e.readStream e.tRead with
  | .crash => none
  | .ok s3 cl3 =>
    some ((phaseTimeout s3 e.tTimeout e.tTimeout2).1,
      (phaseWrite s1 e.selWritable e.writeOk e.wantWriteAfter e.tWrite).2 ++ cl3 ++
        (phaseTimeout s3 e.tTimeout e.tTimeout2).2)

/-- One full iteration of the while-True loop of Process._run (lines
210-281). -/
def step (s : LoopState) (e : Env) : StepOut :=
  match phase1 s e.tRedirect e.tCheck with
  | none => .stopped
  | some (s1, cl1, cr) =>
    match stepTail s1 s1.conn.isSome e with
    | none => .crash
    | some (s4, cl) => .ok s4 ⟨cl1 ++ cl, cr⟩

/-- Process.change_master (lines 189-193): record the desired master;
the wakeup notification only interrupts select and has no further
loop-state effect. -/
def change_master (s : LoopState) (m : Option String) : LoopState :=
  { s with newMaster := m }

/-- Run successive loop iterations, collecting every closed connection
address and every endpoint a Connection was created for, stopping at
loop exit or at an unhandled fault. -/
def runLoop : LoopState → List Env → List String × List String
  | _, [] => ([], [])
  | s, e :: es =>
    match step s e with
    | .stopped => ([], [])
    | .crash => ([], [])
    | .ok s1 tr =>
      let r := runLoop s1 es
      (tr.closes ++ r.1, tr.created.toList ++ r.2)

end Pymesos

namespace Pymesos

/-! ## Shared lemmas -/

/-- When the buffer head matches a length prefix whose announced payload
is not fully present, the extraction loop makes no progress: it fails to
finish within any fuel bound. -/
theorem extractLoop_stuck {J : Type} (decode : List Nat → Option J) (buf : List Nat)
    (p l : Nat) (hm : matchLength buf = some (p, l)) (hlen : buf.length < p + l) :
    ∀ fuel acc, extractLoop decode fuel buf acc = none := by
  intro fuel
  induction fuel with
  | zero => intro _; rfl
  | succ n ih =>
    intro acc
    simp only [extractLoop, hm]
    rw [if_neg (by omega)]
    exact ih acc

end Pymesos

namespace Pymesos

/-! ## Claim theorems -/

/-- C3: the claim says the record-extraction loop inside a single read
call terminates for every buffer state, including a buffer holding a
length prefix and newline but fewer payload bytes than announced.  On
the buffer 5 newline leftbrace (bytes 53 10 123) the loop of process.py
lines 112-129 re-matches the same prefix forever — there is no break in
the insufficient-bytes case — so it finishes within no fuel bound. -/
theorem C3_extraction_loop_nontermination :
    ∀ fuel, extractLoop (fun bs : List Nat => some bs) fuel [53, 10, 123] [] = none := by
  intro fuel
  exact extractLoop_stuck (fun bs : List Nat => some bs) [53, 10, 123] 2 5 rfl
    (by decide) fuel []

/-- C2: the claim says any byte-boundary split of a valid record stream
delivers the same event sequence as one single read.  For the valid
one-record stream 7 newline then the 7 payload bytes of a JSON object,
delivered whole, one event is delivered; but split after the third byte
the first read call's extraction loop never terminates (no fuel bound
suffices), so the split delivery never equals the single-read
delivery. -/
theorem C2_framing_not_boundary_insensitive :
    (∀ fuel, readsSequence (fun bs : List Nat => some bs) fuel
        [[55, 10, 123], [34, 97, 34, 58, 49, 125]] [] = none) ∧
    readsSequence (fun bs : List Nat => some bs) 3
        [[55, 10, 123, 34, 97, 34, 58, 49, 125]] [] =
      some ([[123, 34, 97, 34, 58, 49, 125]], [], true) := by
  constructor
  · intro fuel
    have h := extractLoop_stuck (fun bs : List Nat => some bs)
      [55, 10, 123] 2 7 rfl (by decide) fuel []
    simp only [readsSequence, List.nil_append, h]
  · rfl

/-- C4: the claim says no connection-fatal condition makes the worker
terminate or raise, including an iteration whose socket is reported both
writable and readable with the write failing first.  In exactly that
iteration the write failure sets conn to None (lines 253-255), and the
readable dispatch then evaluates conn.fileno() (line 264) on None: the
AttributeError escapes the per-iteration handling, so the iteration ends
in the unhandled-fault path (stop flag plus cross-thread re-raise,
lines 283-287). -/
theorem C4_write_then_read_crashes_worker :
    step ⟨some "m", some "m", false, none, some ⟨"m", true⟩, 0⟩
      ⟨0, 0, true, true, false, false, true, 5, true, none, 6, 7, 8⟩ = .crash := rfl

/-- C5 counterexample: the claim says every attempt that fails to
validate headers within the connect timeout is abandoned, also for the
very first attempt after start.  Here the first connection is created at
time 1 with next_connect_deadline = 0; at time 1000, far beyond
1 + CONNECT_TIMEOUT and with headers never validated, the timeout check
(lines 273-274) requires next_connect_deadline to be nonzero, so the
iteration completes with the connection still alive and no retry
scheduled (deadline still 0). -/
theorem C5_counterexample :
    step ⟨some "m", some "m", false, none, none, 0⟩
      ⟨0, 1, false, false, false, true, true, 0, true, none, 0, 1000, 1000⟩ =
    .ok ⟨some "m", some "m", false, none, some ⟨"m", true⟩, 0⟩ ⟨[], some "m"⟩ := rfl

/-- C6: the claim says Connection.__init__ configures its socket
non-blocking.  The source (line 55) passes True to setblocking: the
socket is configured blocking, and the constructor then issues a
blocking connect. -/
theorem C6_socket_set_blocking :
    connectionSockSetup.blockingArg = true ∧ connectionSockSetup.connectInInit = true :=
  ⟨rfl, rfl⟩

/-- C7 counterexample: on the exact body bytes of the claim — 5 newline
leftbrace quote a quote colon 1 rightbrace 7 newline leftbrace quote b
quote colon 2 2 rightbrace — the first length prefix announces 5 bytes,
so the decoder slices the truncated payload leftbrace quote a quote
colon, whose JSON decode fails: zero events are delivered and the read
reports failure, refuting the claimed two events. -/
theorem C7_counterexample :
    connRead jsonDecode 30 ⟨some "", []⟩ (.parsed ⟨true, 200, true, none, true,
      [53, 10, 123, 34, 97, 34, 58, 49, 125, 55, 10, 123, 34, 98, 34, 58, 50, 50, 125],
      false⟩) =
    some ⟨⟨some "", [49, 125, 55, 10, 123, 34, 98, 34, 58, 50, 50, 125]⟩, [], none, false⟩ :=
  rfl

/-- C7 amended: with the length prefixes matching the payload byte
counts — 7 newline then the 7 bytes of the first object, 8 newline then
the 8 bytes of the second — the decoder delivers exactly two events in
order, the object mapping a to 1 and then the object mapping b to 22,
and the read is not treated as a failure. -/
theorem C7_amended_two_events :
    connRead jsonDecode 30 ⟨some "", []⟩ (.parsed ⟨true, 200, true, none, true,
      [55, 10, 123, 34, 97, 34, 58, 49, 125, 56, 10, 123, 34, 98, 34, 58, 50, 50, 125],
      false⟩) =
    some ⟨⟨some "", []⟩,
      [Json.obj [([97], Json.num 1)], Json.obj [([98], Json.num 22)]], none, true⟩ :=
  rfl

end Pymesos

namespace Pymesos

/-- Body processing never changes the connection's stream id and passes
the earlier handler assignment through to the result. -/
theorem connReadBody_fields {J : Type} (decode : List Nat → Option J) (fuel : Nat)
    (c : ConnState) (v : ParserView) (cb : Option String) (res : ReadResult J)
    (h : connReadBody decode fuel c v cb = some res) :
    res.conn.streamId = c.streamId ∧ res.cbStream = cb := by
  unfold connReadBody at h
  split at h
  · cases hx : extractLoop decode fuel (c.response ++ v.body) [] with
    | none => rw [hx] at h; exact absurd h (by simp)
    | some r =>
      obtain ⟨evs, buf1, ok⟩ := r
      rw [hx] at h
      simp only at h
      split at h <;> [skip; skip] <;> try (split at h)
      all_goals (cases h; exact ⟨rfl, rfl⟩)
  · split at h <;> (cases h; exact ⟨rfl, rfl⟩)

/-- C5 amended: the connect-timeout teardown fires only for attempts
whose next-allowed-attempt deadline is nonzero.  In any iteration where
a connection exists, the deadline is nonzero and the current time
exceeds deadline + CONNECT_TIMEOUT, the connection is torn down with the
stream id cleared and the next attempt scheduled at now +
CONNECT_RETRY_INTERVAL; a zero deadline (as on the very first attempt)
never triggers the timeout check; and a writable readiness report zeroes
the deadline (disarming the check) unless the write itself fails, which
re-arms it at now + CONNECT_RETRY_INTERVAL. -/
theorem C5_amended_timeout_behavior :
    (∀ s tT tT2 c, s.conn = some c → s.deadline ≠ 0 →
        tT > s.deadline + CONNECT_TIMEOUT →
        phaseTimeout s tT tT2 = (teardown s tT2, [c.addr])) ∧
    (∀ s tT tT2, s.deadline = 0 → phaseTimeout s tT tT2 = (s, [])) ∧
    (∀ s c selW wOk wA tW, s.conn = some c → c.wantWrite = true → selW = true →
        (phaseWrite s selW wOk wA tW).1.deadline =
          if wOk then 0 else tW + CONNECT_RETRY_INTERVAL) := by
  refine ⟨?_, ?_, ?_⟩
  · intro s tT tT2 c hc hd ht
    simp [phaseTimeout, hc, hd, ht]
  · intro s tT tT2 hd
    cases hc : s.conn with
    | none => simp [phaseTimeout, hc]
    | some c => simp [phaseTimeout, hc, hd]
  · intro s c selW wOk wA tW hc hw hs
    simp only [phaseWrite, hc, hw, hs]
    cases wOk with
    | true => simp
    | false => simp [teardown]

/-- C5 witness: the amended timeout teardown at a concrete state. -/
theorem C5_witness :
    phaseTimeout ⟨some "m", some "m", false, none, some ⟨"m", false⟩, 3⟩ 9 9 =
      (teardown ⟨some "m", some "m", false, none, some ⟨"m", false⟩, 3⟩ 9, ["m"]) :=
  C5_amended_timeout_behavior.1 _ 9 9 _ rfl (by decide) (by decide)

end Pymesos

namespace Pymesos

/-- C9: when headers complete with status 200 and chunked transfer
encoding but the Mesos-Stream-Id header is absent, the read is not
treated as failed: the connection's stream id becomes the empty string,
the handler's stream_id property is assigned the empty string, and body
decoding proceeds exactly as it would on any read (lines 105-108 use the
empty-string default of get). -/
theorem C9_absent_stream_id_header :
    ∀ (J : Type) (decode : List Nat → Option J) (fuel : Nat) (c : ConnState)
      (v : ParserView),
      c.streamId = none → v.headersComplete = true → v.statusCode = 200 →
      v.chunked = true → v.mesosStreamId = none →
      (connRead decode fuel c (.parsed v) =
          connReadBody decode fuel ⟨some "", c.response⟩ v (some "")) ∧
      (∀ res, connRead decode fuel c (.parsed v) = some res →
          res.conn.streamId = some "" ∧ res.cbStream = some "") := by
  intro J decode fuel c v hsid hhc hsc hch hms
  have key : connRead decode fuel c (.parsed v) =
      connReadBody decode fuel ⟨some "", c.response⟩ v (some "") := by
    simp [connRead, hsid, hhc, hsc, hch, hms]
  refine ⟨key, ?_⟩
  intro res h
  rw [key] at h
  have hf := connReadBody_fields decode fuel ⟨some "", c.response⟩ v (some "") res h
  exact ⟨hf.1, hf.2⟩

/-- C9 witness: a concrete read with the affinity header absent. -/
theorem C9_witness :
    connRead (fun bs : List Nat => some bs) 5 ⟨none, []⟩
        (.parsed ⟨true, 200, true, none, true, [50, 10, 123, 125], false⟩) =
      connReadBody (fun bs : List Nat => some bs) 5 ⟨some "", []⟩
        ⟨true, 200, true, none, true, [50, 10, 123, 125], false⟩ (some "") :=
  (C9_absent_stream_id_header (List Nat) (fun bs => some bs) 5 ⟨none, []⟩
    ⟨true, 200, true, none, true, [50, 10, 123, 125], false⟩ rfl rfl rfl rfl rfl).1

/-- C10: once the connection's stream id is set (even to the empty
string) the status and transfer-encoding checks of lines 96-103 are
skipped — the read result does not depend on the reported status code or
chunked flag — and every read preserves the fact that the stream id is
set, so header validation and capture happen at most once per
connection. -/
theorem C10_header_checks_once :
    (∀ (J : Type) (decode : List Nat → Option J) (fuel : Nat) (c : ConnState)
        (v : ParserView) (sid : String) (code : Nat) (ch : Bool),
        c.streamId = some sid →
        connRead decode fuel c (.parsed v) =
          connRead decode fuel c (.parsed { v with statusCode := code, chunked := ch })) ∧
    (∀ (J : Type) (decode : List Nat → Option J) (fuel : Nat) (c : ConnState)
        (r : RecvCase) (res : ReadResult J),
        connRead decode fuel c r = some res → c.streamId.isSome = true →
        res.conn.streamId.isSome = true) := by
  constructor
  · intro J decode fuel c v sid code ch hsid
    have h1 : ¬(c.streamId = none ∧ v.headersComplete = true) := by simp [hsid]
    have h2 : ¬(c.streamId = none ∧
        ({ v with statusCode := code, chunked := ch } : ParserView).headersComplete = true) := by
      simp [hsid]
    simp only [connRead]
    rw [if_neg h1, if_neg h2]
    rfl
  · intro J decode fuel c r res h hs
    cases r with
    | closed =>
      simp only [connRead] at h
      injection h with h1
      subst h1
      exact hs
    | parseError =>
      simp only [connRead] at h
      injection h with h1
      subst h1
      exact hs
    | eagain =>
      simp only [connRead] at h
      injection h with h1
      subst h1
      exact hs
    | sockError =>
      simp only [connRead] at h
      injection h with h1
      subst h1
      exact hs
    | parsed v =>
      simp only [connRead] at h
      split at h
      · rename_i hcond
        rw [hcond.1] at hs
        simp at hs
      · have hf := connReadBody_fields _ _ _ _ _ _ h
        rw [hf.1]
        exact hs

/-- C10 witness: with the stream id already set, a 404 non-chunked
report reads identically to a 200 chunked one. -/
theorem C10_witness :
    connRead (fun bs : List Nat => some bs) 5 ⟨some "sid", []⟩
        (.parsed ⟨true, 200, true, none, false, [], false⟩) =
      connRead (fun bs : List Nat => some bs) 5 ⟨some "sid", []⟩
        (.parsed ⟨true, 404, false, none, false, [], false⟩) :=
  C10_header_checks_once.1 (List Nat) (fun bs => some bs) 5 ⟨some "sid", []⟩
    ⟨true, 200, true, none, false, [], false⟩ "sid" 404 false rfl

end Pymesos

namespace Pymesos

/-- With no live connection the write dispatch does nothing. -/
theorem phaseWrite_none (s : LoopState) (selW wOk wA : Bool) (tW : Nat)
    (h : s.conn = none) : phaseWrite s selW wOk wA tW = (s, []) := by
  unfold phaseWrite
  rw [h]

/-- With no writable report (or no pending bytes) the write dispatch
does nothing. -/
theorem phaseWrite_skip (s : LoopState) (selW wOk wA : Bool) (tW : Nat) (c : LConn)
    (h : s.conn = some c) (hg : (selW && c.wantWrite) = false) :
    phaseWrite s selW wOk wA tW = (s, []) := by
  simp [phaseWrite, h, hg]

/-- A successful send zeroes the deadline and keeps the connection. -/
theorem phaseWrite_sent (s : LoopState) (selW wOk wA : Bool) (tW : Nat) (c : LConn)
    (h : s.conn = some c) (hg : (selW && c.wantWrite) = true) (hok : wOk = true) :
    phaseWrite s selW wOk wA tW =
      ({ s with deadline := 0, conn := some ⟨c.addr, wA⟩ }, []) := by
  simp [phaseWrite, h, hg, hok]

/-- A failed send tears the connection down at time tW. -/
theorem phaseWrite_fail (s : LoopState) (selW wOk wA : Bool) (tW : Nat) (c : LConn)
    (h : s.conn = some c) (hg : (selW && c.wantWrite) = true) (hok : wOk = false) :
    phaseWrite s selW wOk wA tW = (teardown { s with deadline := 0 } tW, [c.addr]) := by
  simp [phaseWrite, h, hg, hok, teardown]

/-- With no live connection the timeout check does nothing. -/
theorem phaseTimeout_none (s : LoopState) (tT tT2 : Nat) (h : s.conn = none) :
    phaseTimeout s tT tT2 = (s, []) := by
  unfold phaseTimeout
  rw [h]

/-- An armed, expired deadline tears the connection down at time tT2. -/
theorem phaseTimeout_fire (s : LoopState) (tT tT2 : Nat) (c : LConn)
    (h : s.conn = some c) (hd : s.deadline ≠ 0)
    (ht : tT > s.deadline + CONNECT_TIMEOUT) :
    phaseTimeout s tT tT2 = (teardown s tT2, [c.addr]) := by
  simp [phaseTimeout, h, hd, ht]

/-- Otherwise the timeout check does nothing. -/
theorem phaseTimeout_skip (s : LoopState) (tT tT2 : Nat) (c : LConn)
    (h : s.conn = some c) (hcond : ¬(s.deadline ≠ 0 ∧ tT > s.deadline + CONNECT_TIMEOUT)) :
    phaseTimeout s tT tT2 = (s, []) := by
  simp only [phaseTimeout, h]
  rw [if_neg hcond]

/-- C1: every way one loop iteration drops the live connection — the
redirect teardown (lines 218-224), a write failure (lines 253-259), a
read failure (lines 265-271) or the connect timeout (lines 275-281) —
leaves the session stream id cleared and the next-allowed-attempt
deadline set to the time of that teardown plus CONNECT_RETRY_INTERVAL;
a new Connection is created only by the connect phase and only when the
current time strictly exceeds the deadline (line 229), and no other
phase ever creates one. -/
theorem C1_disconnect_clears_and_schedules :
    (∀ s t, s.conn.isSome = true → (phaseRedirect s t).1.conn = none →
        (phaseRedirect s t).1.streamId = none ∧
        (phaseRedirect s t).1.deadline = t + CONNECT_RETRY_INTERVAL) ∧
    (∀ s selW wOk wA tW, s.conn.isSome = true →
        (phaseWrite s selW wOk wA tW).1.conn = none →
        (phaseWrite s selW wOk wA tW).1.streamId = none ∧
        (phaseWrite s selW wOk wA tW).1.deadline = tW + CONNECT_RETRY_INTERVAL) ∧
    (∀ s cas selR rOk u tR s1 cl, phaseRead s cas selR rOk u tR = .ok s1 cl →
        s.conn.isSome = true → s1.conn = none →
        s1.streamId = none ∧ s1.deadline = tR + CONNECT_RETRY_INTERVAL) ∧
    (∀ s tT tT2, s.conn.isSome = true → (phaseTimeout s tT tT2).1.conn = none →
        (phaseTimeout s tT tT2).1.streamId = none ∧
        (phaseTimeout s tT tT2).1.deadline = tT2 + CONNECT_RETRY_INTERVAL) ∧
    (∀ s t, (phaseConnect s t).2.isSome = true → t > s.deadline) ∧
    (∀ s t, s.conn = none → (phaseRedirect s t).1.conn = none) ∧
    (∀ s selW wOk wA tW, s.conn = none → (phaseWrite s selW wOk wA tW).1.conn = none) ∧
    (∀ s cas selR rOk u tR s1 cl, phaseRead s cas selR rOk u tR = .ok s1 cl →
        s.conn = none → s1.conn = none) ∧
    (∀ s tT tT2, s.conn = none → (phaseTimeout s tT tT2).1.conn = none) := by
  refine ⟨?_, ?_, ?_, ?_, ?_, ?_, ?_, ?_, ?_⟩
  · intro s t hs
    unfold phaseRedirect
    split
    · cases hc : s.conn with
      | some c => intro _; exact ⟨rfl, rfl⟩
      | none => rw [hc] at hs; simp at hs
    · intro h
      rw [h] at hs
      simp at hs
  · intro s selW wOk wA tW hs
    cases hc : s.conn with
    | none => rw [hc] at hs; simp at hs
    | some c =>
      cases hg : (selW && c.wantWrite) with
      | false =>
        rw [phaseWrite_skip s selW wOk wA tW c hc hg]
        intro h
        simp at h
        simp [h] at hc
      | true =>
        cases hok : wOk with
        | true =>
          rw [phaseWrite_sent s selW true wA tW c hc hg rfl]
          intro h
          simp at h
        | false =>
          rw [phaseWrite_fail s selW false wA tW c hc hg rfl]
          intro _
          exact ⟨rfl, rfl⟩
  · intro s cas selR rOk u tR s1 cl h hs hnone
    unfold phaseRead at h
    split at h
    · split at h
      · cases h
      · rename_i c heq
        split at h
        · cases h
          simp [heq] at hnone
        · cases h
          exact ⟨rfl, rfl⟩
    · cases h
      simp [hnone] at hs
  · intro s tT tT2 hs
    cases hc : s.conn with
    | none => rw [hc] at hs; simp at hs
    | some c =>
      by_cases hcond : s.deadline ≠ 0 ∧ tT > s.deadline + CONNECT_TIMEOUT
      · rw [phaseTimeout_fire s tT tT2 c hc hcond.1 hcond.2]
        intro _
        exact ⟨rfl, rfl⟩
      · rw [phaseTimeout_skip s tT tT2 c hc hcond]
        intro h
        simp at h
        simp [h] at hc
  · intro s t h
    unfold phaseConnect at h
    split at h
    · split at h
      · rename_i hgt
        exact hgt
      · simp at h
    · simp at h
  · intro s t h
    unfold phaseRedirect
    split <;> simp [h]
  · intro s selW wOk wA tW h
    unfold phaseWrite
    simp [h]
  · intro s cas selR rOk u tR s1 cl h hc
    unfold phaseRead at h
    split at h
    · split at h
      · cases h
      · rename_i c heq
        rw [hc] at heq
        cases heq
    · cases h
      exact hc
  · intro s tT tT2 h
    unfold phaseTimeout
    simp [h]

/-- C1 witness: the redirect teardown at a concrete state, and the
connect guard at a concrete time past the deadline. -/
theorem C1_witness :
    ((phaseRedirect ⟨some "a", some "b", false, some "x", some ⟨"a", true⟩, 0⟩ 7).1.streamId =
        none ∧
      (phaseRedirect ⟨some "a", some "b", false, some "x", some ⟨"a", true⟩, 0⟩ 7).1.deadline =
        7 + CONNECT_RETRY_INTERVAL) ∧
    3 > (⟨some "a", some "a", false, none, none, 2⟩ : LoopState).deadline :=
  ⟨C1_disconnect_clears_and_schedules.1
      ⟨some "a", some "b", false, some "x", some ⟨"a", true⟩, 0⟩ 7 rfl (by decide),
    C1_disconnect_clears_and_schedules.2.2.2.2.1
      ⟨some "a", some "a", false, none, none, 2⟩ 3 rfl⟩

end Pymesos

namespace Pymesos

/-- With desired master equal to active master the redirect phase does
nothing. -/
theorem phaseRedirect_same (s : LoopState) (t : Nat) (h : s.newMaster = s.master) :
    phaseRedirect s t = (s, []) := by
  unfold phaseRedirect
  rw [if_neg (by simp [h])]

/-- A redirect with a live connection tears it down and adopts the new
master. -/
theorem phaseRedirect_fire_some (s : LoopState) (t : Nat) (c : LConn)
    (hne : s.newMaster ≠ s.master) (hc : s.conn = some c) :
    phaseRedirect s t = ({ teardown s t with master := s.newMaster }, [c.addr]) := by
  unfold phaseRedirect
  rw [if_pos hne, hc]

/-- With a live connection the connect phase does nothing. -/
theorem phaseConnect_someConn (s : LoopState) (t : Nat) (c : LConn)
    (hc : s.conn = some c) : phaseConnect s t = (s, none) := by
  unfold phaseConnect
  rw [hc]

/-- With no master set the connect phase does nothing. -/
theorem phaseConnect_noMaster (s : LoopState) (t : Nat) (hc : s.conn = none)
    (hm : s.master = none) : phaseConnect s t = (s, none) := by
  unfold phaseConnect
  rw [hc, hm]

/-- Before the deadline has passed the connect phase does nothing. -/
theorem phaseConnect_wait (s : LoopState) (t : Nat) (m : String) (hc : s.conn = none)
    (hm : s.master = some m) (ht : ¬t > s.deadline) :
    phaseConnect s t = (s, none) := by
  simp [phaseConnect, hc, hm, ht]

/-- Past the deadline, with no connection and a master set, a fresh
connection to the master is created. -/
theorem phaseConnect_create (s : LoopState) (t : Nat) (m : String) (hc : s.conn = none)
    (hm : s.master = some m) (ht : t > s.deadline) :
    phaseConnect s t = ({ s with conn := some ⟨m, true⟩ }, some m) := by
  simp [phaseConnect, hc, hm, ht]

/-- The connect phase preserves masters, only adds a connection whose
address is the master, and reports a created endpoint only if it is the
master. -/
theorem phaseConnect_spec (s : LoopState) (t : Nat) :
    (phaseConnect s t).1.master = s.master ∧
    (phaseConnect s t).1.newMaster = s.newMaster ∧
    (∀ c1, (phaseConnect s t).1.conn = some c1 →
        s.conn = some c1 ∨ s.master = some c1.addr) ∧
    (∀ m, (phaseConnect s t).2 = some m → s.master = some m) := by
  rcases Option.eq_none_or_eq_some s.conn with hc | ⟨c, hc⟩
  · rcases Option.eq_none_or_eq_some s.master with hm | ⟨m, hm⟩
    · rw [phaseConnect_noMaster s t hc hm]
      exact ⟨rfl, rfl, fun c1 h1 => Or.inl h1, by simp⟩
    · by_cases ht : t > s.deadline
      · rw [phaseConnect_create s t m hc hm ht]
        refine ⟨rfl, rfl, ?_, ?_⟩
        · intro c1 h1
          have h2 : some (⟨m, true⟩ : LConn) = some c1 := h1
          injection h2 with h3
          rw [← h3]
          exact Or.inr hm
        · intro m1 h1
          have h2 : some m = some m1 := h1
          injection h2 with h3
          rw [← h3]
          exact hm
      · rw [phaseConnect_wait s t m hc hm ht]
        exact ⟨rfl, rfl, fun c1 h1 => Or.inl h1, by simp⟩
  · rw [phaseConnect_someConn s t c hc]
    exact ⟨rfl, rfl, fun c1 h1 => Or.inl h1, by simp⟩

/-- The write dispatch preserves masters, keeps at most the same
connection address, and closes only the live connection's address. -/
theorem phaseWrite_spec (s : LoopState) (selW wOk wA : Bool) (tW : Nat) :
    (phaseWrite s selW wOk wA tW).1.master = s.master ∧
    (phaseWrite s selW wOk wA tW).1.newMaster = s.newMaster ∧
    (∀ c1, (phaseWrite s selW wOk wA tW).1.conn = some c1 →
        ∃ c, s.conn = some c ∧ c1.addr = c.addr) ∧
    (∀ a, a ∈ (phaseWrite s selW wOk wA tW).2 → ∃ c, s.conn = some c ∧ a = c.addr) := by
  rcases Option.eq_none_or_eq_some s.conn with hc | ⟨c, hc⟩
  · rw [phaseWrite_none s selW wOk wA tW hc]
    refine ⟨rfl, rfl, ?_, ?_⟩
    · intro c1 h1
      have h2 : s.conn = some c1 := h1
      rw [hc] at h2
      cases h2
    · intro a ha
      simp at ha
  · cases hg : (selW && c.wantWrite) with
    | false =>
      rw [phaseWrite_skip s selW wOk wA tW c hc hg]
      refine ⟨rfl, rfl, ?_, ?_⟩
      · intro c1 h1
        exact ⟨c1, h1, rfl⟩
      · intro a ha
        simp at ha
    | true =>
      cases wOk with
      | true =>
        rw [phaseWrite_sent s selW true wA tW c hc hg rfl]
        refine ⟨rfl, rfl, ?_, ?_⟩
        · intro c1 h1
          have h2 : some (⟨c.addr, wA⟩ : LConn) = some c1 := h1
          injection h2 with h3
          rw [← h3]
          exact ⟨c, hc, rfl⟩
        · intro a ha
          simp at ha
      | false =>
        rw [phaseWrite_fail s selW false wA tW c hc hg rfl]
        refine ⟨rfl, rfl, ?_, ?_⟩
        · intro c1 h1
          have h2 : (none : Option LConn) = some c1 := h1
          cases h2
        · intro a ha
          have h2 : a ∈ [c.addr] := ha
          simp at h2
          exact ⟨c, hc, h2⟩

/-- The readable dispatch, when it does not crash, preserves masters,
keeps at most the same connection, and closes only the live
connection's address. -/
theorem phaseRead_spec (s : LoopState) (cas selR rOk : Bool) (u : Option String)
    (tR : Nat) (s1 : LoopState) (cl : List String)
    (h : phaseRead s cas selR rOk u tR = .ok s1 cl) :
    s1.master = s.master ∧ s1.newMaster = s.newMaster ∧
    (∀ c1, s1.conn = some c1 → s.conn = some c1) ∧
    (∀ a, a ∈ cl → ∃ c, s.conn = some c ∧ a = c.addr) := by
  unfold phaseRead at h
  split at h
  · split at h
    · cases h
    · rename_i c heq
      split at h
      · cases h
        refine ⟨rfl, rfl, ?_, by simp⟩
        intro c1 h1
        have h2 : s.conn = some c1 := h1
        rw [heq]
        rw [heq] at h2
        exact h2
      · cases h
        refine ⟨rfl, rfl, ?_, ?_⟩
        · intro c1 h1
          simp [teardown] at h1
        · intro a ha
          simp at ha
          exact ⟨c, heq, ha⟩
  · cases h
    exact ⟨rfl, rfl, fun c1 h1 => h1, by simp⟩

/-- The timeout check preserves masters, keeps at most the same
connection, and closes only the live connection's address. -/
theorem phaseTimeout_spec (s : LoopState) (tT tT2 : Nat) :
    (phaseTimeout s tT tT2).1.master = s.master ∧
    (phaseTimeout s tT tT2).1.newMaster = s.newMaster ∧
    (∀ c1, (phaseTimeout s tT tT2).1.conn = some c1 → s.conn = some c1) ∧
    (∀ a, a ∈ (phaseTimeout s tT tT2).2 → ∃ c, s.conn = some c ∧ a = c.addr) := by
  rcases Option.eq_none_or_eq_some s.conn with hc | ⟨c, hc⟩
  · rw [phaseTimeout_none s tT tT2 hc]
    exact ⟨rfl, rfl, fun c1 h1 => h1, by simp⟩
  · by_cases hcond : s.deadline ≠ 0 ∧ tT > s.deadline + CONNECT_TIMEOUT
    · rw [phaseTimeout_fire s tT tT2 c hc hcond.1 hcond.2]
      refine ⟨rfl, rfl, ?_, ?_⟩
      · intro c1 h1
        simp [teardown] at h1
      · intro a ha
        simp at ha
        exact ⟨c, hc, ha⟩
    · rw [phaseTimeout_skip s tT tT2 c hc hcond]
      exact ⟨rfl, rfl, fun c1 h1 => h1, by simp⟩

/-- The post-select tail of an iteration preserves masters, keeps at
most the connection it was given (same address), and closes only
addresses of connections it was given. -/
theorem stepTail_spec (s1 : LoopState) (cas : Bool) (e : Env) (s4 : LoopState)
    (cl : List String) (h : stepTail s1 cas e = some (s4, cl)) :
    s4.master = s1.master ∧ s4.newMaster = s1.newMaster ∧
    (∀ c1, s4.conn = some c1 → ∃ c, s1.conn = some c ∧ c1.addr = c.addr) ∧
    (∀ a, a ∈ cl → ∃ c, s1.conn = some c ∧ a = c.addr) := by
  obtain ⟨w1, w2, w3, w4⟩ := phaseWrite_spec s1 e.selWritable e.writeOk e.wantWriteAfter e.tWrite
  unfold stepTail at h
  cases hr : phaseRead (phaseWrite s1 e.selWritable e.writeOk e.wantWriteAfter e.tWrite).1
      cas e.selReadable e.readOk e.readStream e.tRead with
  | crash => rw [hr] at h; cases h
  | ok s3 cl3 =>
    rw [hr] at h
    obtain ⟨r1, r2, r3, r4⟩ := phaseRead_spec _ _ _ _ _ _ _ _ hr
    obtain ⟨t1, t2, t3, t4⟩ := phaseTimeout_spec s3 e.tTimeout e.tTimeout2
    injection h with h1
    rw [Prod.mk.injEq] at h1
    obtain ⟨hA, hB⟩ := h1
    subst hA
    subst hB
    refine ⟨?_, ?_, ?_, ?_⟩
    · rw [t1, r1, w1]
    · rw [t2, r2, w2]
    · intro c1 h1
      exact w3 c1 (r3 c1 (t3 c1 h1))
    · intro a ha
      rcases List.mem_append.mp ha with ha1 | ha2
      · rcases List.mem_append.mp ha1 with ha3 | ha4
        · exact w4 a ha3
        · obtain ⟨c, hcc, hac⟩ := r4 a ha4
          obtain ⟨c2, hcc2, hac2⟩ := w3 c hcc
          exact ⟨c2, hcc2, by rw [hac, hac2]⟩
      · obtain ⟨c, hcc, hac⟩ := t4 a ha2
        obtain ⟨c2, hcc2, hac2⟩ := w3 c (r3 c hcc)
        exact ⟨c2, hcc2, by rw [hac, hac2]⟩

end Pymesos

namespace Pymesos

/-- From a state whose desired and active master both equal m and whose
connection (if any) targets m, one iteration keeps that shape, closes
only connections to m, and creates connections only to m. -/
theorem step_onTarget {m : String} (s : LoopState) (e : Env)
    (h1 : s.newMaster = some m) (h2 : s.master = some m)
    (h3 : ∀ c, s.conn = some c → c.addr = m) (s1 : LoopState) (tr : Trace)
    (h : step s e = .ok s1 tr) :
    s1.newMaster = some m ∧ s1.master = some m ∧
    (∀ c, s1.conn = some c → c.addr = m) ∧
    (∀ a, a ∈ tr.closes → a = m) ∧ (∀ a, tr.created = some a → a = m) := by
  by_cases hstop : s.stop = true
  · simp [step, phase1, hstop] at h
  · have hp1 : phase1 s e.tRedirect e.tCheck =
        some ((phaseConnect s e.tCheck).1, [], (phaseConnect s e.tCheck).2) := by
      unfold phase1
      rw [if_neg hstop, phaseRedirect_same s e.tRedirect (by rw [h1, h2])]
    unfold step at h
    rw [hp1] at h
    obtain ⟨c1m, c2m, c3m, c4m⟩ := phaseConnect_spec s e.tCheck
    cases hst : stepTail (phaseConnect s e.tCheck).1
        ((phaseConnect s e.tCheck).1.conn.isSome) e with
    | none => simp [hst] at h
    | some pr =>
      obtain ⟨s4, cl⟩ := pr
      simp only [hst] at h
      cases h
      obtain ⟨q1, q2, q3, q4⟩ :=
        stepTail_spec (phaseConnect s e.tCheck).1 _ e _ _ hst
      have hAm : (phaseConnect s e.tCheck).1.master = some m := by rw [c1m, h2]
      have hAn : (phaseConnect s e.tCheck).1.newMaster = some m := by rw [c2m, h1]
      have hAc : ∀ c, (phaseConnect s e.tCheck).1.conn = some c → c.addr = m := by
        intro c hcc
        rcases c3m c hcc with hx | hx
        · exact h3 c hx
        · rw [h2] at hx
          injection hx with hx1
          rw [hx1]
      refine ⟨?_, ?_, ?_, ?_, ?_⟩
      · rw [q2, hAn]
      · rw [q1, hAm]
      · intro c hcc
        obtain ⟨c2, hc2, hadr⟩ := q3 c hcc
        rw [hadr]
        exact hAc c2 hc2
      · intro a ha
        simp only [List.nil_append] at ha
        obtain ⟨c2, hc2, hadr⟩ := q4 a ha
        rw [hadr]
        exact hAc c2 hc2
      · intro a ha
        have := c4m a ha
        rw [h2] at this
        injection this with hx
        rw [← hx]

/-- A pending redirect to m with a live connection c: one completed
iteration closes c first (then possibly connections to m), creates
connections only to m, and leaves the loop targeting m. -/
theorem step_redirected {m : String} (s : LoopState) (e : Env) (c : LConn)
    (h1 : s.newMaster = some m) (h2 : s.newMaster ≠ s.master) (hc : s.conn = some c)
    (s1 : LoopState) (tr : Trace) (h : step s e = .ok s1 tr) :
    s1.newMaster = some m ∧ s1.master = some m ∧
    (∀ c1, s1.conn = some c1 → c1.addr = m) ∧
    (∃ rest, tr.closes = c.addr :: rest ∧ ∀ a, a ∈ rest → a = m) ∧
    (∀ a, tr.created = some a → a = m) := by
  by_cases hstop : s.stop = true
  · simp [step, phase1, hstop] at h
  · have hp1 : phase1 s e.tRedirect e.tCheck =
        some ((phaseConnect { teardown s e.tRedirect with master := s.newMaster }
            e.tCheck).1, [c.addr],
          (phaseConnect { teardown s e.tRedirect with master := s.newMaster } e.tCheck).2) := by
      unfold phase1
      rw [if_neg hstop, phaseRedirect_fire_some s e.tRedirect c h2 hc]
    unfold step at h
    rw [hp1] at h
    obtain ⟨c1m, c2m, c3m, c4m⟩ :=
      phaseConnect_spec { teardown s e.tRedirect with master := s.newMaster } e.tCheck
    cases hst : stepTail
        (phaseConnect { teardown s e.tRedirect with master := s.newMaster } e.tCheck).1
        ((phaseConnect { teardown s e.tRedirect with master := s.newMaster }
          e.tCheck).1.conn.isSome) e with
    | none => simp [hst] at h
    | some pr =>
      obtain ⟨s4, cl⟩ := pr
      simp only [hst] at h
      cases h
      obtain ⟨q1, q2, q3, q4⟩ := stepTail_spec _ _ e _ _ hst
      have hAm : (phaseConnect { teardown s e.tRedirect with master := s.newMaster }
          e.tCheck).1.master = some m := by
        rw [c1m]
        exact h1
      have hAn : (phaseConnect { teardown s e.tRedirect with master := s.newMaster }
          e.tCheck).1.newMaster = some m := by
        rw [c2m]
        exact h1
      have hAc : ∀ c1, (phaseConnect { teardown s e.tRedirect with master := s.newMaster }
          e.tCheck).1.conn = some c1 → c1.addr = m := by
        intro c1 hcc
        rcases c3m c1 hcc with hx | hx
        · have hx2 : (none : Option LConn) = some c1 := hx
          cases hx2
        · have hx2 : s.newMaster = some c1.addr := hx
          rw [h1] at hx2
          injection hx2 with hx3
          rw [← hx3]
      refine ⟨?_, ?_, ?_, ?_, ?_⟩
      · rw [q2, hAn]
      · rw [q1, hAm]
      · intro c1 hcc
        obtain ⟨c2, hc2, hadr⟩ := q3 c1 hcc
        rw [hadr]
        exact hAc c2 hc2
      · refine ⟨cl, rfl, ?_⟩
        intro a ha
        obtain ⟨c2, hc2, hadr⟩ := q4 a ha
        rw [hadr]
        exact hAc c2 hc2
      · intro a ha
        have hx := c4m a ha
        have hx2 : s.newMaster = some a := hx
        rw [h1] at hx2
        injection hx2 with hx3
        rw [← hx3]

/-- Over any run from a state targeting m on both master fields with a
connection (if any) to m, every closed address and every created
endpoint is m. -/
theorem runLoop_onTarget {m : String} :
    ∀ (es : List Env) (s : LoopState), s.newMaster = some m → s.master = some m →
      (∀ c, s.conn = some c → c.addr = m) →
      (∀ a, a ∈ (runLoop s es).1 → a = m) ∧ (∀ a, a ∈ (runLoop s es).2 → a = m) := by
  intro es
  induction es with
  | nil =>
    intro s _ _ _
    constructor <;> intro a ha <;> simp [runLoop] at ha
  | cons e es ih =>
    intro s h1 h2 h3
    cases hs : step s e with
    | stopped =>
      constructor <;> intro a ha <;> simp [runLoop, hs] at ha
    | crash =>
      constructor <;> intro a ha <;> simp [runLoop, hs] at ha
    | ok s1 tr =>
      obtain ⟨g1, g2, g3, g4, g5⟩ := step_onTarget s e h1 h2 h3 s1 tr hs
      obtain ⟨r1, r2⟩ := ih s1 g1 g2 g3
      have heq1 : (runLoop s (e :: es)).1 = tr.closes ++ (runLoop s1 es).1 := by
        simp [runLoop, hs]
      have heq2 : (runLoop s (e :: es)).2 = tr.created.toList ++ (runLoop s1 es).2 := by
        simp [runLoop, hs]
      constructor
      · intro a ha
        rw [heq1] at ha
        rcases List.mem_append.mp ha with hx | hx
        · exact g4 a hx
        · exact r1 a hx
      · intro a ha
        rw [heq2] at ha
        rcases List.mem_append.mp ha with hx | hx
        · exact g5 a (by simpa using hx)
        · exact r2 a hx

end Pymesos

namespace Pymesos

/-- C8: two redirect calls in quick succession (targets E1 then E2)
while a connection to E0 is live, both recorded before the loop's next
iteration, leave the desired master at E2 (the later call wins, lines
189-191); over the remaining run the E0 connection's address is closed
at most once and no connection to E1 is ever created. -/
theorem C8_second_redirect_supersedes (s : LoopState) (c : LConn) (E0 E1 E2 : String)
    (envs : List Env) (hm : s.master = some E0) (hc : s.conn = some c)
    (hca : c.addr = E0) (h20 : E2 ≠ E0) (h12 : E1 ≠ E2) :
    ((runLoop (change_master (change_master s (some E1)) (some E2)) envs).1).count E0 ≤ 1 ∧
    E1 ∉ (runLoop (change_master (change_master s (some E1)) (some E2)) envs).2 := by
  have h2n : (change_master (change_master s (some E1)) (some E2)).newMaster = some E2 := rfl
  have h2m : (change_master (change_master s (some E1)) (some E2)).master = some E0 := hm
  have h2c : (change_master (change_master s (some E1)) (some E2)).conn = some c := hc
  cases envs with
  | nil => simp [runLoop]
  | cons e es =>
    cases hs : step (change_master (change_master s (some E1)) (some E2)) e with
    | stopped => simp [runLoop, hs]
    | crash => simp [runLoop, hs]
    | ok s1 tr =>
      have hne : (change_master (change_master s (some E1)) (some E2)).newMaster ≠
          (change_master (change_master s (some E1)) (some E2)).master := by
        rw [h2n, h2m]
        intro hx
        injection hx with hx1
        exact h20 hx1
      obtain ⟨g1, g2, g3, g4, g5⟩ :=
        step_redirected (change_master (change_master s (some E1)) (some E2)) e c
          h2n hne h2c s1 tr hs
      obtain ⟨rest, hrest, hrestm⟩ := g4
      obtain ⟨r1, r2⟩ := runLoop_onTarget es s1 g1 g2 g3
      have heq1 : (runLoop (change_master (change_master s (some E1)) (some E2))
          (e :: es)).1 = tr.closes ++ (runLoop s1 es).1 := by
        simp [runLoop, hs]
      have heq2 : (runLoop (change_master (change_master s (some E1)) (some E2))
          (e :: es)).2 = tr.created.toList ++ (runLoop s1 es).2 := by
        simp [runLoop, hs]
      constructor
      · rw [heq1, hrest, hca]
        have hz1 : (rest.count E0) = 0 := by
          rw [List.count_eq_zero]
          intro hmem
          exact h20 ((hrestm E0 hmem).symm ▸ rfl)
        have hz2 : (((runLoop s1 es).1).count E0) = 0 := by
          rw [List.count_eq_zero]
          intro hmem
          exact h20 ((r1 E0 hmem).symm ▸ rfl)
        rw [List.cons_append, List.count_cons_self, List.count_append, hz1, hz2]
      · rw [heq2]
        intro hmem
        rcases List.mem_append.mp hmem with hx | hx
        · have hx2 : tr.created = some E1 := by simpa using hx
          exact h12 (g5 E1 hx2)
        · exact h12 (r2 E1 hx)

/-- C8 witness: a concrete double redirect followed by one iteration. -/
theorem C8_witness :
    ((runLoop (change_master (change_master
        ⟨some "a", some "a", false, none, some ⟨"a", true⟩, 0⟩ (some "b")) (some "c"))
        [⟨0, 5, false, false, false, true, true, 0, true, none, 0, 0, 0⟩]).1).count "a" ≤ 1 ∧
    "b" ∉ (runLoop (change_master (change_master
        ⟨some "a", some "a", false, none, some ⟨"a", true⟩, 0⟩ (some "b")) (some "c"))
        [⟨0, 5, false, false, false, true, true, 0, true, none, 0, 0, 0⟩]).2 :=
  C8_second_redirect_supersedes ⟨some "a", some "a", false, none, some ⟨"a", true⟩, 0⟩
    ⟨"a", true⟩ "a" "b" "c"
    [⟨0, 5, false, false, false, true, true, 0, true, none, 0, 0, 0⟩]
    rfl rfl rfl (by decide) (by decide)

end Pymesos
